import Mathlib

/-!
Shallow embedding of three RxJS operators — `distinct`, `isEmpty`, `windowWhen`
(files `src/operator/distinct.ts`, `src/operator/isEmpty.ts`,
`src/operator/windowWhen.ts`) — as pure event-driven state machines.

Each operator's Subscriber is modelled as a state together with a step
function consuming one upstream event and producing the list of events the
operator pushes to its downstream destination.  The base `Subscriber` /
`Subscription` classes are not part of the source tree; their terminal-state
protocol is modelled from the spec (section 4.2): once a Subscriber observes
error or complete it closes, and every later next/error/complete call is
dropped silently.  A `stopped` flag in each state records that closure.

User callbacks that may throw (the `compare` comparator of `distinct`, the
`closingSelector` of `windowWhen`) are embedded as `Except`/`Option`-valued
functions: `.error e` / `some e` means the callback threw `e`.
-/

/-- Events a destination Subscriber receives: `next v`, `complete`, `error e`. -/
inductive Out (T E : Type) where
  | next (v : T)
  | complete
  | error (e : E)
deriving Repr, DecidableEq

/-- Events arriving at a `DistinctSubscriber`: from the source stream
(`srcNext`, `srcComplete`, `srcError`) and from the auxiliary `flushes`
stream through its `FlushSubscriber` (`flushNext`, `flushComplete`,
`flushError`).  `flushNext` carries the flushed value, which the code
ignores (`next()` takes no parameter). -/
inductive DEv (T F E : Type) where
  | srcNext (v : T)
  | srcComplete
  | srcError (e : E)
  | flushNext (f : F)
  | flushComplete
  | flushError (e : E)
deriving Repr, DecidableEq

/-- State of a `DistinctSubscriber`: the `values` memory of previously
forwarded values, and the terminal-state flag of the Subscriber chain
(modelled from the spec, section 4.2: base `Subscriber` is not in the
source tree). -/
structure DState (T : Type) where
  values : List T
  stopped : Bool
deriving Repr, DecidableEq

/-- The `for` loop of `DistinctSubscriber._next`: scan the memory left to
right with `compare existing value`; stop at the first `true` or the first
thrown exception. -/
def scanMem (compare : T → T → Except E Bool) (v : T) : List T → Except E Bool
  | [] => .ok false
  | x :: xs =>
    match compare x v with
    | .error e => .error e
    | .ok true => .ok true
    | .ok false => scanMem compare v xs

/-- One step of the `DistinctSubscriber` machine.
`srcNext` is `_next`: scan memory; a thrown comparison delivers
`destination.error err` (and the Subscriber closes per the spec's normal
error handling); a `true` comparison suppresses the value; otherwise the
value is appended to memory and forwarded.  `srcComplete`/`srcError` are the
base Subscriber handlers (forward and close).  `flushNext` is
`FlushSubscriber.next` → `parent.flush()` which clears the memory;
`flushComplete` is a no-op; `flushError` is `FlushSubscriber.error` →
`parent.error err` (forward and close). -/
def dStep (compare : T → T → Except E Bool) (st : DState T) :
    DEv T F E → List (Out T E) × DState T
  | .srcNext v =>
    if st.stopped then ([], st)
    else
      match scanMem compare v st.values with
      | .error e => ([.error e], { st with stopped := true })
      | .ok true => ([], st)
      | .ok false => ([.next v], { st with values := st.values ++ [v] })
  | .srcComplete =>
    if st.stopped then ([], st) else ([.complete], { st with stopped := true })
  | .srcError e =>
    if st.stopped then ([], st) else ([.error e], { st with stopped := true })
  | .flushNext _ => ([], { st with values := [] })
  | .flushComplete => ([], st)
  | .flushError e =>
    if st.stopped then ([], st) else ([.error e], { st with stopped := true })

/-- Initial state of a fresh `DistinctSubscriber`: empty memory, active. -/
def dInit : DState T := ⟨[], false⟩

/-- Run the `DistinctSubscriber` machine over a list of events, collecting
the downstream output trace. -/
def dRun (compare : T → T → Except E Bool) :
    DState T → List (DEv T F E) → List (Out T E) × DState T
  | st, [] => ([], st)
  | st, e :: es =>
    let p := dStep compare st e
    let q := dRun compare p.2 es
    (p.1 ++ q.1, q.2)

/-- A total boolean comparator embedded as a never-throwing `compare`. -/
def liftCmp (cmp : T → T → Bool) : T → T → Except E Bool :=
  fun x y => .ok (cmp x y)

/-- The default comparator of `distinct`: strict equality `x === y`. -/
def defaultCmp [DecidableEq T] : T → T → Bool := fun x y => x = y

/-- Reference function written from the claim's words: forward `v` iff
`cmp existing v` is false for every value currently in memory, appending
forwarded values to memory in order. -/
def distinctSpec (cmp : T → T → Bool) : List T → List T → List T
  | _, [] => []
  | mem, v :: vs =>
    if mem.any (fun x => cmp x v) then distinctSpec cmp mem vs
    else v :: distinctSpec cmp (mem ++ [v]) vs

/-- The source-next values of a Distinct event trace. -/
def dSrcVals : List (DEv T F E) → List T
  | [] => []
  | .srcNext v :: es => v :: dSrcVals es
  | _ :: es => dSrcVals es

/-- The next-values of a downstream output trace. -/
def outNexts : List (Out T E) → List T
  | [] => []
  | .next v :: os => v :: outNexts os
  | _ :: os => outNexts os

example :
    (dRun (F := Unit) (liftCmp (defaultCmp (T := Int))) dInit
      ([1, 2, 2, 3, 1].map DEv.srcNext)).1 =
      ([1, 2, 3].map (Out.next (E := Int))) := by decide

example :
    (dRun (F := Unit) (liftCmp (fun x y : Int => x % 3 = y % 3)) dInit
      ([1, 2, 3, 4, 5].map DEv.srcNext)).1 =
      ([1, 2, 3].map (Out.next (E := Int))) := by decide

/-- Events arriving at an `IsEmptySubscriber` from its source. -/
inductive IEv (T E : Type) where
  | next (v : T)
  | complete
  | error (e : E)
deriving Repr, DecidableEq

/-- State of an `IsEmptySubscriber`: only the terminal-state flag of the
Subscriber chain (modelled from the spec, section 4.2). -/
structure IEState where
  stopped : Bool
deriving Repr, DecidableEq

/-- One step of the `IsEmptySubscriber` machine.  `_next` ignores the value
and runs `notifyComplete false` (`destination.next false; destination.complete`);
`_complete` runs `notifyComplete true`; an error is forwarded unchanged by
the base Subscriber handler.  Each terminal delivery closes the chain. -/
def ieStep (st : IEState) : IEv T E → List (Out Bool E) × IEState
  | .next _ =>
    if st.stopped then ([], st) else ([.next false, .complete], ⟨true⟩)
  | .complete =>
    if st.stopped then ([], st) else ([.next true, .complete], ⟨true⟩)
  | .error e =>
    if st.stopped then ([], st) else ([.error e], ⟨true⟩)

/-- Run the `IsEmptySubscriber` machine over a list of source events. -/
def ieRun : IEState → List (IEv T E) → List (Out Bool E) × IEState
  | st, [] => ([], st)
  | st, e :: es =>
    let p := ieStep st e
    let q := ieRun p.2 es
    (p.1 ++ q.1, q.2)

/-- Initial state of a fresh `IsEmptySubscriber`. -/
def ieInit : IEState := ⟨false⟩

/-- How a window (the `Subject` a `WindowSubscriber` emits downstream)
ended: still open, completed, or errored. -/
inductive WEnd (E : Type) where
  | opened
  | completed
  | errored (e : E)
deriving Repr, DecidableEq

/-- One window: the values pushed into it, in order, and how it ended. -/
structure Window (T E : Type) where
  items : List T
  ended : WEnd E
deriving Repr, DecidableEq

/-- `Subject.complete` / `Subject.error` on a window: a terminal event on an
already-terminated Subject is a no-op. -/
def setEnd (en : WEnd E) (w : Window T E) : Window T E :=
  match w.ended with
  | .opened => { w with ended := en }
  | _ => w

/-- `Subject.next v` on a window: appended while open, dropped once the
Subject has terminated. -/
def pushItem (v : T) (w : Window T E) : Window T E :=
  match w.ended with
  | .opened => { w with items := w.items ++ [v] }
  | _ => w

/-- State of a `WindowSubscriber`.  `window` is the current `Subject` (none
before the first `openWindow`); `prevWindows` is the history of windows the
Subscriber already replaced, in emission order (a ghost record of Subjects
handed downstream).  `stopped` is the Subscriber's terminal-state flag,
`destClosed` the outer destination's (both modelled from the spec, section
4.2), `notifierActive` records whether a closing-notifier subscription is
live (`closingNotification` subscribed and not unsubscribed), and `calls`
counts invocations of `closingSelector`. -/
structure WWState (T E : Type) where
  prevWindows : List (Window T E)
  window : Option (Window T E)
  stopped : Bool
  destClosed : Bool
  notifierActive : Bool
  calls : Nat
deriving Repr, DecidableEq

/-- Events the outer destination of `windowWhen` receives: a reference to a
newly opened window, completion, or an error. -/
inductive WOut (E : Type) where
  | winRef
  | complete
  | error (e : E)
deriving Repr, DecidableEq

/-- Events arriving at a `WindowSubscriber`: from the source stream and from
the closing notifier through the inner-subscription protocol (`notifyNext`,
`notifyComplete`, `notifyError`). -/
inductive WEv (T E : Type) where
  | srcNext (v : T)
  | srcComplete
  | srcError (e : E)
  | notNext
  | notComplete
  | notError (e : E)
deriving Repr, DecidableEq

/-- `WindowSubscriber.openWindow`: complete the previous window if any,
create a fresh `Subject`, emit it on the outer destination, then call
`closingSelector` guarded by `tryCatch`.  A thrown selector (`selector
st.calls = some e`) delivers the error to the outer destination and to the
just-opened window and leaves no notifier subscription; on success the
returned notifier is subscribed, replacing the previous one. -/
def openWindow (selector : Nat → Option E) (st : WWState T E) :
    List (WOut E) × WWState T E :=
  let pws :=
    match st.window with
    | none => st.prevWindows
    | some w => st.prevWindows ++ [setEnd WEnd.completed w]
  let emitted : List (WOut E) := if st.destClosed then [] else [WOut.winRef]
  match selector st.calls with
  | some e =>
    (emitted ++ (if st.destClosed then [] else [WOut.error e]),
     { prevWindows := pws, window := some ⟨[], WEnd.errored e⟩,
       stopped := st.stopped, destClosed := true, notifierActive := false,
       calls := st.calls + 1 })
  | none =>
    (emitted,
     { prevWindows := pws, window := some ⟨[], WEnd.opened⟩,
       stopped := st.stopped, destClosed := st.destClosed,
       notifierActive := true, calls := st.calls + 1 })

/-- One step of the `WindowSubscriber` machine.  `_next` pushes the value
into the current window only; `_complete` / `_error` terminate the current
window, the outer destination, and unsubscribe the closing notifier;
`notifyNext` and `notifyComplete` both run `openWindow`; `notifyError` runs
`_error`.  Notifier events are only delivered while a notifier subscription
is live. -/
def wwStep (selector : Nat → Option E) (st : WWState T E) :
    WEv T E → List (WOut E) × WWState T E
  | .srcNext v =>
    if st.stopped then ([], st)
    else ([], { st with window := st.window.map (pushItem v) })
  | .srcComplete =>
    if st.stopped then ([], st)
    else ((if st.destClosed then [] else [WOut.complete]),
          { st with
              window := st.window.map (setEnd WEnd.completed),
              stopped := true, destClosed := true, notifierActive := false })
  | .srcError e =>
    if st.stopped then ([], st)
    else ((if st.destClosed then [] else [WOut.error e]),
          { st with
              window := st.window.map (setEnd (WEnd.errored e)),
              stopped := true, destClosed := true, notifierActive := false })
  | .notNext =>
    if st.notifierActive then openWindow selector st else ([], st)
  | .notComplete =>
    if st.notifierActive then openWindow selector st else ([], st)
  | .notError e =>
    if st.notifierActive then
      ((if st.destClosed then [] else [WOut.error e]),
       { st with
           window := st.window.map (setEnd (WEnd.errored e)),
           destClosed := true, notifierActive := false })
    else ([], st)

/-- State of a `WindowSubscriber` before its constructor runs. -/
def wwBlank : WWState T E := ⟨[], none, false, false, false, 0⟩

/-- The `WindowSubscriber` constructor: it immediately opens window #1. -/
def wwInit (selector : Nat → Option E) : List (WOut E) × WWState T E :=
  openWindow selector wwBlank

/-- Run the `WindowSubscriber` machine over a list of events. -/
def wwRun (selector : Nat → Option E) :
    WWState T E → List (WEv T E) → List (WOut E) × WWState T E
  | st, [] => ([], st)
  | st, e :: es =>
    let p := wwStep selector st e
    let q := wwRun selector p.2 es
    (p.1 ++ q.1, q.2)

/-- Construct the `WindowSubscriber` and run it over an event list. -/
def wwFull (selector : Nat → Option E) (evs : List (WEv T E)) :
    List (WOut E) × WWState T E :=
  let p := wwInit selector
  let q := wwRun selector p.2 evs
  (p.1 ++ q.1, q.2)

/-- Every window the Subscriber has emitted downstream, in emission order. -/
def allWindows (st : WWState T E) : List (Window T E) :=
  match st.window with
  | none => st.prevWindows
  | some w => st.prevWindows ++ [w]

/-- Number of windows emitted downstream so far. -/
def windowCount (st : WWState T E) : Nat := (allWindows st).length

/-- Concatenation of the contents of every emitted window, in emission
order. -/
def joinAll (st : WWState T E) : List T := ((allWindows st).map Window.items).flatten

/-- Number of window references in an outer output trace. -/
def winRefCount : List (WOut E) → Nat
  | [] => 0
  | .winRef :: os => winRefCount os + 1
  | _ :: os => winRefCount os

/-- Number of still-open windows in a list. -/
def openCount : List (Window T E) → Nat
  | [] => 0
  | w :: ws =>
    (match w.ended with | WEnd.opened => 1 | _ => 0) + openCount ws

/-- A closing selector that never throws. -/
def selNone : Nat → Option E := fun _ => none

/-- An interleaving of source values (`Sum.inl v`) and closing-notifier
firings (`Sum.inr ()`), encoded as `WindowSubscriber` events. -/
def encodeTrace : List (T ⊕ Unit) → List (WEv T E)
  | [] => []
  | Sum.inl v :: tr => WEv.srcNext v :: encodeTrace tr
  | Sum.inr _ :: tr => WEv.notNext :: encodeTrace tr

/-- Number of notifier firings in an interleaving. -/
def notCount : List (T ⊕ Unit) → Nat
  | [] => 0
  | Sum.inl _ :: tr => notCount tr
  | Sum.inr _ :: tr => notCount tr + 1

/-- The source values of an interleaving, in order. -/
def srcVals : List (T ⊕ Unit) → List T
  | [] => []
  | Sum.inl v :: tr => v :: srcVals tr
  | Sum.inr _ :: tr => srcVals tr

example :
    (wwFull (selNone (E := Int)) (encodeTrace
      [Sum.inl (1 : Int), Sum.inl 2, Sum.inr (), Sum.inl 3, Sum.inr (),
       Sum.inr (), Sum.inl 4])).1 =
      [WOut.winRef, WOut.winRef, WOut.winRef, WOut.winRef] := by decide

example :
    joinAll (wwFull (selNone (E := Int)) (encodeTrace
      [Sum.inl (1 : Int), Sum.inl 2, Sum.inr (), Sum.inl 3, Sum.inr (),
       Sum.inr (), Sum.inl 4])).2 = [1, 2, 3, 4] := by decide

example :
    (wwFull (fun n => if n = 0 then some (7 : Int) else none)
      [WEv.srcNext (5 : Int), WEv.notNext, WEv.srcComplete]).1 =
      [WOut.winRef, WOut.error 7] := by decide

/-- Once the `IsEmptySubscriber` chain is closed, every further source event
is dropped. -/
theorem ieRun_stopped (evs : List (IEv T E)) :
    ieRun ⟨true⟩ evs = ([], ⟨true⟩) := by
  induction evs with
  | nil => rfl
  | cons e es ih => cases e <;> simp [ieRun, ieStep, ih]

/-- Memory scanning with a never-throwing comparator returns whether some
remembered value compares true. -/
theorem scanMem_liftCmp (cmp : T → T → Bool) (v : T) :
    ∀ mem : List T, scanMem (E := E) (liftCmp cmp) v mem =
      .ok (mem.any fun x => cmp x v) := by
  intro mem
  induction mem with
  | nil => rfl
  | cons x xs ih =>
    cases h : cmp x v <;> simp [scanMem, liftCmp, h, ih]

/-- Final memory of the Distinct machine after a run of source values. -/
def distinctMemSpec (cmp : T → T → Bool) : List T → List T → List T
  | mem, [] => mem
  | mem, v :: vs =>
    if mem.any (fun x => cmp x v) then distinctMemSpec cmp mem vs
    else distinctMemSpec cmp (mem ++ [v]) vs

/-- Running Distinct with a never-throwing comparator over source values
computes exactly the reference `distinctSpec` outputs and memory, and the
Subscriber stays open. -/
theorem dRun_liftCmp (cmp : T → T → Bool) :
    ∀ (xs : List T) (mem : List T),
      dRun (F := F) (E := E) (liftCmp cmp) ⟨mem, false⟩ (xs.map DEv.srcNext) =
        ((distinctSpec cmp mem xs).map Out.next,
         ⟨distinctMemSpec cmp mem xs, false⟩) := by
  intro xs
  induction xs with
  | nil => intro mem; rfl
  | cons v vs ih =>
    intro mem
    by_cases h : mem.any (fun x => cmp x v) <;>
      simp [dRun, dStep, scanMem_liftCmp, h, distinctSpec, distinctMemSpec, ih]

/-- `outNexts` distributes over append. -/
theorem outNexts_append (os₁ os₂ : List (Out T E)) :
    outNexts (os₁ ++ os₂) = outNexts os₁ ++ outNexts os₂ := by
  induction os₁ with
  | nil => rfl
  | cons o os ih => cases o <;> simp [outNexts, ih]

/-- Once the Distinct Subscriber chain is closed, no event produces output
and the chain stays closed. -/
theorem dRun_stopped (compare : T → T → Except E Bool) :
    ∀ (evs : List (DEv T F E)) (st : DState T), st.stopped = true →
      (dRun compare st evs).1 = [] ∧ (dRun compare st evs).2.stopped = true := by
  intro evs
  induction evs with
  | nil => intro st h; exact ⟨rfl, h⟩
  | cons e es ih =>
    intro st h
    cases e <;> simp [dRun, dStep, h] <;>
      first
        | exact ih st h
        | exact ih ⟨[], true⟩ rfl

/-- Composition of Distinct runs over appended event lists. -/
theorem dRun_append (compare : T → T → Except E Bool) :
    ∀ (as bs : List (DEv T F E)) (st : DState T),
      dRun compare st (as ++ bs) =
        ((dRun compare st as).1 ++ (dRun compare (dRun compare st as).2 bs).1,
         (dRun compare (dRun compare st as).2 bs).2) := by
  intro as
  induction as with
  | nil => intro bs st; simp [dRun]
  | cons a as ih => intro bs st; simp [dRun, ih]

/-- The next-values Distinct emits form a subsequence of the source values,
from any state. -/
theorem dRun_sublist (compare : T → T → Except E Bool) :
    ∀ (evs : List (DEv T F E)) (st : DState T),
      List.Sublist (outNexts (dRun compare st evs).1) (dSrcVals evs) := by
  intro evs
  induction evs with
  | nil => intro st; simp [dRun, outNexts, dSrcVals]
  | cons e es ih =>
    intro st
    cases e with
    | srcNext v =>
      by_cases hs : st.stopped
      · simp [dRun, dStep, hs, outNexts_append, outNexts, dSrcVals]
        exact (ih st).cons v
      · cases h : scanMem compare v st.values with
        | error e' =>
          simp [dRun, dStep, hs, h, outNexts_append, outNexts, dSrcVals]
          exact (ih _).cons v
        | ok b =>
          cases b
          · simp [dRun, dStep, hs, h, outNexts_append, outNexts, dSrcVals]
            exact ih _
          · simp [dRun, dStep, hs, h, outNexts_append, outNexts, dSrcVals]
            exact (ih st).cons v
    | srcComplete =>
      by_cases hs : st.stopped <;>
        simpa [dRun, dStep, hs, outNexts_append, outNexts, dSrcVals] using ih _
    | srcError e' =>
      by_cases hs : st.stopped <;>
        simpa [dRun, dStep, hs, outNexts_append, outNexts, dSrcVals] using ih _
    | flushNext f =>
      simpa [dRun, dStep, outNexts_append, outNexts, dSrcVals] using ih _
    | flushComplete =>
      simpa [dRun, dStep, outNexts_append, outNexts, dSrcVals] using ih _
    | flushError e' =>
      by_cases hs : st.stopped <;>
        simpa [dRun, dStep, hs, outNexts_append, outNexts, dSrcVals] using ih _

/-- Claim C2: for every input sequence and every (total) comparator,
Distinct forwards a value downstream iff `compare existing value` is false
for every value currently in memory, appending forwarded values to memory
in order; with the default comparator, source 1,2,2,3,1 yields 1,2,3, and
with `compare x y = (x % 3 = y % 3)`, source 1,2,3,4,5 yields 1,2,3. -/
theorem distinct_forwards_iff_no_memory_match (T : Type)
    (cmp : T → T → Bool) (xs : List T) :
    (dRun (F := Unit) (E := Unit) (liftCmp cmp) dInit (xs.map DEv.srcNext)).1 =
        (distinctSpec cmp [] xs).map Out.next
    ∧ (dRun (F := Unit) (liftCmp (defaultCmp (T := Int))) dInit
        ([1, 2, 2, 3, 1].map DEv.srcNext)).1 =
        ([1, 2, 3].map (Out.next (E := Int)))
    ∧ (dRun (F := Unit) (liftCmp (fun x y : Int => x % 3 = y % 3)) dInit
        ([1, 2, 3, 4, 5].map DEv.srcNext)).1 =
        ([1, 2, 3].map (Out.next (E := Int))) := by
  refine ⟨?_, by decide, by decide⟩
  simpa [dInit] using congrArg Prod.fst (dRun_liftCmp (F := Unit) (E := Unit) cmp xs [])

/-- Claim C4: if the comparator throws during the scan for some incoming
value, the exception is delivered as an error to the destination, the
Distinct Subscriber closes, and no further values are emitted downstream
after the throwing comparison, whatever events follow. -/
theorem distinct_comparator_throw_terminal (T F E : Type)
    (compare : T → T → Except E Bool) (xs : List T) (ys : List (DEv T F E))
    (v : T) (e : E)
    (h1 : (dRun (F := F) compare dInit (xs.map DEv.srcNext)).2.stopped = false)
    (h2 : scanMem compare v
        (dRun (F := F) compare dInit (xs.map DEv.srcNext)).2.values =
        Except.error e) :
    (dRun compare dInit (xs.map DEv.srcNext ++ DEv.srcNext v :: ys)).1 =
        (dRun (F := F) compare dInit (xs.map DEv.srcNext)).1 ++ [Out.error e]
    ∧ (dRun compare dInit (xs.map DEv.srcNext ++ DEv.srcNext v :: ys)).2.stopped
        = true := by
  have hrest := dRun_stopped compare ys
      (⟨(dRun (F := F) compare dInit (xs.map DEv.srcNext)).2.values, true⟩) rfl
  constructor <;>
    simp [dRun_append, dRun, dStep, h1, h2, hrest.1, hrest.2]

/-- Claim C4 witness: a comparator throwing on the pair (1, 4) after the
memory [1, 2] has been built up. -/
theorem distinct_comparator_throw_terminal_witness :
    ((dRun (F := Unit)
        (fun x y : Int => if y = 4 then Except.error (9 : Int) else Except.ok (x = y))
        dInit ([1, 2].map DEv.srcNext)).2.stopped = false)
    ∧ (scanMem (fun x y : Int => if y = 4 then Except.error (9 : Int) else Except.ok (x = y)) 4
        (dRun (F := Unit)
          (fun x y : Int => if y = 4 then Except.error (9 : Int) else Except.ok (x = y))
          dInit ([1, 2].map DEv.srcNext)).2.values = Except.error 9)
    ∧ ((dRun (F := Unit)
          (fun x y : Int => if y = 4 then Except.error (9 : Int) else Except.ok (x = y))
          dInit ([1, 2].map DEv.srcNext ++
            DEv.srcNext 4 :: [DEv.srcNext 5, DEv.flushComplete])).1 =
        (dRun (F := Unit)
          (fun x y : Int => if y = 4 then Except.error (9 : Int) else Except.ok (x = y))
          dInit ([1, 2].map DEv.srcNext)).1 ++ [Out.error 9]
      ∧ (dRun (F := Unit)
          (fun x y : Int => if y = 4 then Except.error (9 : Int) else Except.ok (x = y))
          dInit ([1, 2].map DEv.srcNext ++
            DEv.srcNext 4 :: [DEv.srcNext 5, DEv.flushComplete])).2.stopped = true) :=
  ⟨rfl, rfl,
   distinct_comparator_throw_terminal Int Unit Int
     (fun x y : Int => if y = 4 then Except.error (9 : Int) else Except.ok (x = y))
     [1, 2] [DEv.srcNext 5, DEv.flushComplete] 4 9 rfl rfl⟩

/-- Claim C8: a value from `flushes` clears the memory with no effect on the
main stream's open/closed state; `flushes` completing is a no-op; `flushes`
erroring is forwarded to the main destination and closes the Distinct
subscriber; and source 1,2,(flush),1 yields 1,2,1. -/
theorem distinct_flush_collaborator (T E : Type)
    (compare : T → T → Except E Bool) (st : DState T) (f : T) (e : E)
    (h : st.stopped = false) :
    dStep (F := T) compare st (DEv.flushNext f) = ([], { st with values := [] })
    ∧ dStep (F := T) compare st DEv.flushComplete = ([], st)
    ∧ dStep (F := T) compare st (DEv.flushError e) =
        ([Out.error e], { st with stopped := true })
    ∧ (dRun (liftCmp (defaultCmp (T := Int))) dInit
        [DEv.srcNext 1, DEv.srcNext 2, DEv.flushNext (), DEv.srcNext 1]).1 =
        ([1, 2, 1].map (Out.next (E := Int))) := by
  refine ⟨rfl, rfl, ?_, by decide⟩
  simp [dStep, h]

/-- Claim C8 witness: the flush contract applied at the concrete state with
memory [1, 2]. -/
theorem distinct_flush_collaborator_witness :
    ((⟨[1, 2], false⟩ : DState Int).stopped = false)
    ∧ (dStep (F := Int) (liftCmp (defaultCmp (T := Int))) ⟨[1, 2], false⟩
          (DEv.flushNext (3 : Int)) = (([] : List (Out Int Int)), ⟨[], false⟩)
      ∧ dStep (F := Int) (liftCmp (defaultCmp (T := Int))) ⟨[1, 2], false⟩
          DEv.flushComplete = (([] : List (Out Int Int)), ⟨[1, 2], false⟩)
      ∧ dStep (F := Int) (liftCmp (defaultCmp (T := Int))) ⟨[1, 2], false⟩
          (DEv.flushError (7 : Int)) = ([Out.error 7], ⟨[1, 2], true⟩)
      ∧ (dRun (liftCmp (defaultCmp (T := Int))) dInit
          [DEv.srcNext 1, DEv.srcNext 2, DEv.flushNext (), DEv.srcNext 1]).1 =
          ([1, 2, 1].map (Out.next (E := Int)))) :=
  ⟨rfl, distinct_flush_collaborator Int Int (liftCmp (defaultCmp (T := Int)))
    ⟨[1, 2], false⟩ 3 7 rfl⟩

/-- Claim C10: a value emitted by `flushes` only clears the memory and is
never itself forwarded (its step emits nothing downstream), and Distinct's
next-outputs always form a subsequence of the source values in source
order, from any state and under any event interleaving. -/
theorem distinct_output_subsequence_of_source (T E : Type)
    (compare : T → T → Except E Bool) (st : DState T) (f : T)
    (evs : List (DEv T T E)) :
    dStep compare st (DEv.flushNext f) = ([], { st with values := [] })
    ∧ List.Sublist (outNexts (dRun compare st evs).1) (dSrcVals evs) := by
  exact ⟨rfl, dRun_sublist compare evs st⟩

/-- Claim C5: on the first source value, IsEmpty emits `false` then
completes immediately — whatever source events would follow — the chain
closes, and every further source event is dropped. -/
theorem isEmpty_first_value_completes (T E : Type) (v : T)
    (evs : List (IEv T E)) (e : IEv T E) :
    ieRun ieInit (IEv.next v :: evs) = ([Out.next false, Out.complete], ⟨true⟩)
    ∧ ieStep ⟨true⟩ e = ([], ⟨true⟩) := by
  constructor
  · simp [ieRun, ieStep, ieInit, ieRun_stopped]
  · cases e <;> rfl

/-- Claim C9: IsEmpty emits exactly one boolean then completes whenever the
source emits a value or completes — `false` on a first value, `true` on
completion with zero values — and an error before any value is propagated
unchanged with no boolean emitted. -/
theorem isEmpty_single_boolean_protocol (T E : Type) (v : T) (e : E)
    (evs evs₂ evs₃ : List (IEv T E)) :
    (ieRun ieInit (IEv.next v :: evs)).1 = [Out.next false, Out.complete]
    ∧ (ieRun ieInit (IEv.complete :: evs₂)).1 = [Out.next true, Out.complete]
    ∧ (ieRun ieInit (IEv.error e :: evs₃)).1 = [Out.error e] := by
  refine ⟨?_, ?_, ?_⟩ <;> simp [ieRun, ieStep, ieInit, ieRun_stopped]

/-- Reference partition of an interleaving into window contents: the
contents of each window closed by a notifier firing, and the contents of
the still-open final window. -/
def c1Windows (c : List T) : List (T ⊕ Unit) → List (List T) × List T
  | [] => ([], c)
  | Sum.inl v :: tr => c1Windows (c ++ [v]) tr
  | Sum.inr _ :: tr =>
    let p := c1Windows ([] : List T) tr
    (c :: p.1, p.2)

/-- Running `windowWhen` with a never-throwing selector from a healthy state
(open current window, live notifier, open destination) over an interleaving
of source values and notifier firings: the outer outputs are exactly one
window reference per notifier firing, and the window history follows
`c1Windows`. -/
theorem wwRun_encode (tr : List (T ⊕ Unit)) :
    ∀ (pws : List (Window T E)) (c : List T) (n : Nat),
      wwRun selNone ⟨pws, some ⟨c, WEnd.opened⟩, false, false, true, n⟩
          (encodeTrace tr) =
        (List.replicate (notCount tr) WOut.winRef,
         ⟨pws ++ (c1Windows c tr).1.map (fun l => ⟨l, WEnd.completed⟩),
          some ⟨(c1Windows c tr).2, WEnd.opened⟩, false, false, true,
          n + notCount tr⟩) := by
  induction tr with
  | nil => intro pws c n; simp [encodeTrace, wwRun, c1Windows, notCount]
  | cons x tr ih =>
    intro pws c n
    cases x with
    | inl v =>
      simp [encodeTrace, wwRun, wwStep, pushItem, notCount, c1Windows, ih]
    | inr u =>
      simp [encodeTrace, wwRun, wwStep, openWindow, selNone, setEnd, notCount,
        c1Windows, ih, List.replicate_succ]
      omega

/-- One closed window per notifier firing. -/
theorem c1Windows_length (tr : List (T ⊕ Unit)) :
    ∀ c : List T, (c1Windows c tr).1.length = notCount tr := by
  induction tr with
  | nil => intro c; rfl
  | cons x tr ih =>
    intro c
    cases x with
    | inl v => simp [c1Windows, notCount, ih]
    | inr u => simp [c1Windows, notCount, ih]

/-- Concatenating the closed windows' contents and the open window's
contents recovers the source values. -/
theorem c1Windows_flatten (tr : List (T ⊕ Unit)) :
    ∀ c : List T,
      (c1Windows c tr).1.flatten ++ (c1Windows c tr).2 = c ++ srcVals tr := by
  induction tr with
  | nil => intro c; simp [c1Windows, srcVals]
  | cons x tr ih =>
    intro c
    cases x with
    | inl v => simp [c1Windows, srcVals, ih]
    | inr u => simp [c1Windows, srcVals, ih]

/-- Replicated window references count to their length. -/
theorem winRefCount_replicate (n : Nat) :
    winRefCount (E := E) (List.replicate n WOut.winRef) = n := by
  induction n with
  | zero => rfl
  | succ n ih => simp [List.replicate_succ, winRefCount, ih]

/-- `openCount` distributes over append. -/
theorem openCount_append (ws₁ ws₂ : List (Window T E)) :
    openCount (ws₁ ++ ws₂) = openCount ws₁ + openCount ws₂ := by
  induction ws₁ with
  | nil => simp [openCount]
  | cons w ws ih => simp [openCount, ih]; omega

/-- Completed windows are not open. -/
theorem openCount_completed (ls : List (List T)) :
    openCount (E := E) (ls.map fun l => ⟨l, WEnd.completed⟩) = 0 := by
  induction ls with
  | nil => rfl
  | cons l ls ih => simpa [openCount] using ih

/-- Taking the contents of completed-window records recovers the contents. -/
theorem map_items_completed (ls : List (List T)) :
    (ls.map fun l => (⟨l, WEnd.completed⟩ : Window T E)).map Window.items
      = ls := by
  induction ls with
  | nil => rfl
  | cons l ls ih => simp [ih]

/-- Claim C1: for every source sequence and every interleaved notifier that
fires N times during the source's lifetime, `windowWhen` emits exactly N+1
window references, exactly one window is open at the end of any such run,
and concatenating the windows' contents in emission order equals the
original source sequence with no value duplicated or dropped. -/
theorem windowWhen_partitions_source (T : Type) (tr : List (T ⊕ Unit)) :
    winRefCount (wwFull (selNone (E := Unit)) (encodeTrace tr)).1 =
        notCount tr + 1
    ∧ windowCount (wwFull (selNone (E := Unit)) (encodeTrace tr)).2 =
        notCount tr + 1
    ∧ joinAll (wwFull (selNone (E := Unit)) (encodeTrace tr)).2 = srcVals tr
    ∧ openCount (allWindows (wwFull (selNone (E := Unit)) (encodeTrace tr)).2)
        = 1 := by
  have hinit : wwInit (T := T) (selNone (E := Unit)) =
      ([WOut.winRef], ⟨[], some ⟨[], WEnd.opened⟩, false, false, true, 1⟩) := rfl
  have hrun := wwRun_encode (E := Unit) tr [] [] 1
  refine ⟨?_, ?_, ?_, ?_⟩
  · simp [wwFull, hinit, hrun, winRefCount, winRefCount_replicate]
  · simp [wwFull, hinit, hrun, windowCount, allWindows, c1Windows_length]
  · have hflat := c1Windows_flatten tr ([] : List T)
    simp only [List.nil_append] at hflat
    simp [wwFull, hinit, hrun, joinAll, allWindows, Function.comp_def, hflat]
  · simp [wwFull, hinit, hrun, allWindows, openCount_append,
      openCount_completed, openCount]

/-- After a selector throw the machine is inert: the notifier is not
subscribed and the destination is closed, so no event produces output, no
window is ever added, and the errored window never changes. -/
theorem wwRun_halted (selector : Nat → Option E) (e : E) :
    ∀ (evs : List (WEv T E)) (st : WWState T E),
      st.window = some ⟨[], WEnd.errored e⟩ → st.destClosed = true →
      st.notifierActive = false →
      (wwRun selector st evs).1 = []
      ∧ (wwRun selector st evs).2.window = some ⟨[], WEnd.errored e⟩
      ∧ (wwRun selector st evs).2.prevWindows = st.prevWindows
      ∧ (wwRun selector st evs).2.destClosed = true
      ∧ (wwRun selector st evs).2.notifierActive = false := by
  intro evs
  induction evs with
  | nil => intro st h1 h2 h3; exact ⟨rfl, h1, rfl, h2, h3⟩
  | cons ev es ih =>
    intro st h1 h2 h3
    cases ev with
    | srcNext v =>
      by_cases hs : st.stopped
      · simpa [wwRun, wwStep, hs] using ih st h1 h2 h3
      · have := ih { st with window := st.window.map (pushItem v) }
          (by simp [h1, pushItem]) h2 h3
        simpa [wwRun, wwStep, hs] using this
    | srcComplete =>
      by_cases hs : st.stopped
      · simpa [wwRun, wwStep, hs] using ih st h1 h2 h3
      · have := ih { st with
            window := st.window.map (setEnd WEnd.completed),
            stopped := true, destClosed := true, notifierActive := false }
          (by simp [h1, setEnd]) rfl rfl
        simpa [wwRun, wwStep, hs, h2] using this
    | srcError e' =>
      by_cases hs : st.stopped
      · simpa [wwRun, wwStep, hs] using ih st h1 h2 h3
      · have := ih { st with
            window := st.window.map (setEnd (WEnd.errored e')),
            stopped := true, destClosed := true, notifierActive := false }
          (by simp [h1, setEnd]) rfl rfl
        simpa [wwRun, wwStep, hs, h2] using this
    | notNext => simpa [wwRun, wwStep, h3] using ih st h1 h2 h3
    | notComplete => simpa [wwRun, wwStep, h3] using ih st h1 h2 h3
    | notError e' => simpa [wwRun, wwStep, h3] using ih st h1 h2 h3

/-- Claim C3: if `closingSelector` throws on the very first window open, the
error goes both to the outer destination and to the just-opened, otherwise
empty first window, and — whatever events follow — windowing halts: no
subsequent window is ever opened and no further outer output occurs. -/
theorem windowWhen_first_selector_throw (T E : Type)
    (selector : Nat → Option E) (e : E) (h : selector 0 = some e)
    (evs : List (WEv T E)) :
    wwInit (T := T) selector =
      ([WOut.winRef, WOut.error e],
       ⟨[], some ⟨[], WEnd.errored e⟩, false, true, false, 1⟩)
    ∧ (wwFull selector evs).1 = [WOut.winRef, WOut.error e]
    ∧ windowCount (wwFull selector evs).2 = 1
    ∧ (wwFull selector evs).2.window = some ⟨[], WEnd.errored e⟩ := by
  have hinit : wwInit (T := T) selector =
      ([WOut.winRef, WOut.error e],
       ⟨[], some ⟨[], WEnd.errored e⟩, false, true, false, 1⟩) := by
    simp [wwInit, openWindow, wwBlank, h]
  have hrest := wwRun_halted selector e evs
    (⟨[], some ⟨[], WEnd.errored e⟩, false, true, false, 1⟩ : WWState T E)
    rfl rfl rfl
  refine ⟨hinit, ?_, ?_, ?_⟩
  · simp [wwFull, hinit, hrest.1]
  · simp [wwFull, hinit, windowCount, allWindows, hrest.2.1, hrest.2.2.1]
  · simp [wwFull, hinit, hrest.2.1]

/-- Claim C3 witness: a selector throwing 7 on its first call, followed by a
source value, a notifier firing, and source completion. -/
theorem windowWhen_first_selector_throw_witness :
    ((fun _ => some 7 : Nat → Option Nat) 0 = some 7)
    ∧ (wwInit (T := Nat) (fun _ => some 7) =
        ([WOut.winRef, WOut.error 7],
         ⟨[], some ⟨[], WEnd.errored 7⟩, false, true, false, 1⟩)
      ∧ (wwFull (T := Nat) (fun _ => some 7)
          [WEv.srcNext 1, WEv.notNext, WEv.srcComplete]).1 =
          [WOut.winRef, WOut.error 7]
      ∧ windowCount (wwFull (T := Nat) (fun _ => some 7)
          [WEv.srcNext 1, WEv.notNext, WEv.srcComplete]).2 = 1
      ∧ (wwFull (T := Nat) (fun _ => some 7)
          [WEv.srcNext 1, WEv.notNext, WEv.srcComplete]).2.window =
          some ⟨[], WEnd.errored 7⟩) :=
  ⟨rfl, windowWhen_first_selector_throw Nat Nat (fun _ => some 7) 7 rfl
    [WEv.srcNext 1, WEv.notNext, WEv.srcComplete]⟩

/-- Claim C6: from a running state (not stopped, destination open, current
window open), source completion completes the current window, completes the
outer destination and unsubscribes the closing notifier; source error
errors the current window, errors the outer destination and unsubscribes
the closing notifier. -/
theorem windowWhen_source_terminal (T E : Type) (selector : Nat → Option E)
    (st : WWState T E) (e : E) (c : List T)
    (h1 : st.stopped = false) (h2 : st.destClosed = false)
    (h3 : st.window = some ⟨c, WEnd.opened⟩) :
    wwStep selector st WEv.srcComplete =
      ([WOut.complete],
       { st with
           window := some ⟨c, WEnd.completed⟩, stopped := true,
           destClosed := true, notifierActive := false })
    ∧ wwStep selector st (WEv.srcError e) =
      ([WOut.error e],
       { st with
           window := some ⟨c, WEnd.errored e⟩, stopped := true,
           destClosed := true, notifierActive := false }) := by
  constructor <;> simp [wwStep, h1, h2, h3, setEnd]

/-- Claim C6 witness: the terminal contract applied at a concrete running
state whose current window holds [5]. -/
theorem windowWhen_source_terminal_witness :
    ((⟨[], some ⟨[5], WEnd.opened⟩, false, false, true, 1⟩ :
        WWState Nat Nat).stopped = false)
    ∧ ((⟨[], some ⟨[5], WEnd.opened⟩, false, false, true, 1⟩ :
        WWState Nat Nat).destClosed = false)
    ∧ (wwStep (selNone (E := Nat))
        (⟨[], some ⟨[5], WEnd.opened⟩, false, false, true, 1⟩ :
          WWState Nat Nat) WEv.srcComplete =
        ([WOut.complete], ⟨[], some ⟨[5], WEnd.completed⟩, true, true, false, 1⟩)
      ∧ wwStep (selNone (E := Nat))
        (⟨[], some ⟨[5], WEnd.opened⟩, false, false, true, 1⟩ :
          WWState Nat Nat) (WEv.srcError 3) =
        ([WOut.error 3], ⟨[], some ⟨[5], WEnd.errored 3⟩, true, true, false, 1⟩)) :=
  ⟨rfl, rfl, windowWhen_source_terminal Nat Nat (selNone (E := Nat))
    ⟨[], some ⟨[5], WEnd.opened⟩, false, false, true, 1⟩ 3 [5] rfl rfl rfl⟩

/-- Claim C7: a value from the closing notifier and the closing notifier's
completion are handled by the same transition, and from a running state
with a live notifier (even one that has fired zero values) it cuts the
current window — completing it — and opens a fresh one with a fresh
`closingSelector` call. -/
theorem windowWhen_notifier_value_and_completion_alike (T E : Type)
    (selector : Nat → Option E) (st : WWState T E) (c : List T)
    (h1 : st.notifierActive = true) (h2 : st.destClosed = false)
    (h3 : st.window = some ⟨c, WEnd.opened⟩) (h4 : selector st.calls = none) :
    (∀ st' : WWState T E,
      wwStep selector st' WEv.notNext = wwStep selector st' WEv.notComplete)
    ∧ wwStep selector st WEv.notComplete =
      ([WOut.winRef],
       { st with
           prevWindows := st.prevWindows ++ [⟨c, WEnd.completed⟩],
           window := some ⟨[], WEnd.opened⟩, notifierActive := true,
           calls := st.calls + 1 }) := by
  refine ⟨fun st' => rfl, ?_⟩
  simp [wwStep, openWindow, h1, h2, h3, h4, setEnd]

/-- Claim C7 witness: the cut-and-reopen contract applied at a concrete
running state whose current window holds [5], with a selector that never
throws. -/
theorem windowWhen_notifier_value_and_completion_alike_witness :
    ((⟨[], some ⟨[5], WEnd.opened⟩, false, false, true, 1⟩ :
        WWState Nat Nat).notifierActive = true)
    ∧ (selNone (E := Nat)
        (⟨[], some ⟨[5], WEnd.opened⟩, false, false, true, 1⟩ :
          WWState Nat Nat).calls = none)
    ∧ ((∀ st' : WWState Nat Nat,
        wwStep (selNone (E := Nat)) st' WEv.notNext =
          wwStep (selNone (E := Nat)) st' WEv.notComplete)
      ∧ wwStep (selNone (E := Nat))
          (⟨[], some ⟨[5], WEnd.opened⟩, false, false, true, 1⟩ :
            WWState Nat Nat) WEv.notComplete =
          ([WOut.winRef],
           ⟨[⟨[5], WEnd.completed⟩], some ⟨[], WEnd.opened⟩, false, false,
            true, 2⟩)) :=
  ⟨rfl, rfl, windowWhen_notifier_value_and_completion_alike Nat Nat
    (selNone (E := Nat)) ⟨[], some ⟨[5], WEnd.opened⟩, false, false, true, 1⟩
    [5] rfl rfl rfl rfl⟩
